import Mathlib

/-!
Verification of the go-zero- circuit-breaker core: a shallow embedding of
the rolling-window statistics container (`core/collection` rolling window),
the adaptive google-style breaker (`core/breaker/googlebreaker.go`), the
breaker construction and diagnostics error window (`core/breaker/breaker.go`),
together with theorems settling the specification claims.

Modelling conventions:
- Go `time.Duration` (an `int64` of nanoseconds) is `Int`; Go integer
  division `/` and remainder `%` on `int64` are `Int.tdiv` / `Int.tmod`
  (truncation toward zero, exactly Go's semantics).
- Go `float64` fields that only ever hold small exact values (bucket sums,
  the drop-ratio formula over small integer counts) are modelled as `ℚ`.
- A Go method call samples the monotonic clock; each embedded operation
  takes the clock reading `now : Int` as an explicit argument (one reading
  per call).
- Functions that can panic return `Option` (`none` models the panic), and
  a wrapped request that terminates abnormally is an explicit `ReqOutcome`.
- Mutation is explicit state passing: a method that could mutate its
  receiver returns the new receiver value.
-/

namespace collection

/-- One time slice of aggregated statistics (part_000 `Bucket`). -/
structure Bucket where
  Sum : ℚ
  Count : ℤ
  deriving Repr, DecidableEq

/-- `Bucket.add`: `Sum += v; Count++`. -/
def Bucket.add (b : Bucket) (v : ℚ) : Bucket :=
  { Sum := b.Sum + v, Count := b.Count + 1 }

/-- `Bucket.reset`: zero both fields. -/
def Bucket.reset (_b : Bucket) : Bucket :=
  { Sum := 0, Count := 0 }

/-- Fixed-size circular array of buckets (part_000 `window`). -/
structure Window where
  buckets : List Bucket
  size : ℕ
  deriving Repr, DecidableEq

/-- The zero bucket, also the out-of-range default for list reads (in Go
the index is always in range, so the default is never consulted). -/
def zeroBucket : Bucket :=
  { Sum := 0, Count := 0 }

/-- `newWindow(size)`: `size` fresh zero buckets. -/
def newWindow (size : ℕ) : Window :=
  { buckets := List.replicate size zeroBucket, size := size }

/-- `window.add(offset, v)`: add `v` into bucket `offset % size`. -/
def Window.add (w : Window) (offset : ℕ) (v : ℚ) : Window :=
  let i := offset % w.size
  { w with buckets := w.buckets.set i ((w.buckets.getD i zeroBucket).add v) }

/-- `window.reduce(start, count, fn)`: the list of buckets visited, in
visit order — `fn` is invoked once per element of this list. -/
def Window.reduce (w : Window) (start count : ℕ) : List Bucket :=
  (List.range count).map (fun i => w.buckets.getD ((start + i) % w.size) zeroBucket)

/-- `window.resetBucket(offset)`: zero the bucket at `offset % size`. -/
def Window.resetBucket (w : Window) (offset : ℕ) : Window :=
  let i := offset % w.size
  { w with buckets := w.buckets.set i ((w.buckets.getD i zeroBucket).reset) }

/-- part_000 `RollingWindow` (the lock is elided; operations are serialized
by explicit state passing). -/
structure RollingWindow where
  size : ℕ
  win : Window
  interval : ℤ
  offset : ℕ
  ignoreCurrent : Bool
  lastTime : ℤ
  deriving Repr, DecidableEq

/-- `RollingWindow.span()`: whole intervals elapsed since `lastTime`,
saturating at `size` (also when the raw quotient is negative). -/
def RollingWindow.span (rw : RollingWindow) (now : ℤ) : ℤ :=
  let offset := (now - rw.lastTime).tdiv rw.interval
  if 0 ≤ offset ∧ offset < (rw.size : ℤ) then offset else (rw.size : ℤ)

/-- `RollingWindow.updateOffset()`: if at least one interval elapsed, reset
the `span` stale buckets after `offset`, advance `offset` by `span` modulo
`size`, and realign `lastTime` to the latest interval boundary at or before
`now`. -/
def RollingWindow.updateOffset (rw : RollingWindow) (now : ℤ) : RollingWindow :=
  let span := rw.span now
  if span ≤ 0 then rw
  else
    let offset := rw.offset
    { rw with
      win := (List.range span.toNat).foldl
        (fun w i => w.resetBucket ((offset + i + 1) % rw.size)) rw.win,
      offset := (offset + span.toNat) % rw.size,
      lastTime := now - (now - rw.lastTime).tmod rw.interval }

/-- `RollingWindow.Add(v)`: rotate via `updateOffset`, then write `v` into
the current bucket. -/
def RollingWindow.Add (rw : RollingWindow) (now : ℤ) (v : ℚ) : RollingWindow :=
  let rw := rw.updateOffset now
  { rw with win := rw.win.add rw.offset v }

/-- `RollingWindow.Reduce(fn)`: returns the (unchanged) receiver state and
the list of buckets `fn` is invoked on, in visit order. -/
def RollingWindow.Reduce (rw : RollingWindow) (now : ℤ) : RollingWindow × List Bucket :=
  let span := rw.span now
  let diff : ℤ :=
    if span = 0 ∧ rw.ignoreCurrent then (rw.size : ℤ) - 1
    else (rw.size : ℤ) - span
  let visited : List Bucket :=
    if 0 < diff then
      rw.win.reduce ((rw.offset + span.toNat + 1) % rw.size) diff.toNat
    else []
  (rw, visited)

/-- The `IgnoreCurrentBucket` rolling-window option. -/
def IgnoreCurrentBucket : RollingWindow → RollingWindow :=
  fun w => { w with ignoreCurrent := true }

/-- `NewRollingWindow(size, interval, opts...)`: panics (`none`) when
`size < 1`, otherwise builds the zeroed window and applies the options. -/
def NewRollingWindow (size interval now : ℤ)
    (opts : List (RollingWindow → RollingWindow)) : Option RollingWindow :=
  if size < 1 then none
  else some (opts.foldl (fun w opt => opt w)
    { size := size.toNat
      win := newWindow size.toNat
      interval := interval
      offset := 0
      ignoreCurrent := false
      lastTime := now })

end collection

namespace breaker

/-- `core/breaker` constants: `window = 10s` in nanoseconds. -/
def windowDuration : ℤ := 10000000000

/-- `buckets = 40`. -/
def buckets : ℤ := 40

/-- `k = 1.5`. -/
def k : ℚ := 3 / 2

/-- `protection = 5`. -/
def protection : ℤ := 5

/-- The adaptive-throttling drop ratio of `googleBreaker.accept`:
`(float64(total-protection) - (k + float64(accepts))) / float64(total+1)`. -/
def dropRatio (kv : ℚ) (accepts total : ℤ) : ℚ :=
  (((total - protection : ℤ) : ℚ) - (kv + (accepts : ℚ))) / (((total + 1 : ℤ) : ℚ))

/-- The admission decision of `googleBreaker.accept` given the history and
the probability sampler; `true` means admit (a `nil` error in Go). -/
def acceptOn (kv : ℚ) (accepts total : ℤ) (sampler : ℚ → Bool) : Bool :=
  if dropRatio kv accepts total ≤ 0 then true
  else !(sampler (dropRatio kv accepts total))

/-- `googleBreaker`: sensitivity plus the rolling window (the probability
sampler is an external collaborator, passed per call). -/
structure googleBreaker where
  k : ℚ
  stat : collection.RollingWindow
  deriving Repr, DecidableEq

/-- `newGoogleBreaker()`: a 40-bucket window over 10s (250ms buckets);
`none` is unreachable since `buckets = 40 >= 1`. -/
def newGoogleBreaker (now : ℤ) : Option googleBreaker :=
  (collection.NewRollingWindow buckets (windowDuration.tdiv buckets) now []).map
    (fun st => { k := k, stat := st })

/-- Go `int64(f)` on a `float64`: truncation toward zero, on the `ℚ` model. -/
def int64OfRat (q : ℚ) : ℤ :=
  q.num.tdiv (q.den : ℤ)

/-- `googleBreaker.history()`: fold `Reduce`, summing `int64(b.Sum)` into
`accepts` and `b.Count` into `total`. -/
def googleBreaker.history (b : googleBreaker) (now : ℤ) : ℤ × ℤ :=
  (b.stat.Reduce now).2.foldl
    (fun acc bk => (acc.1 + int64OfRat bk.Sum, acc.2 + bk.Count)) (0, 0)

/-- `googleBreaker.accept()`: the admission decision from the live window. -/
def googleBreaker.accept (b : googleBreaker) (now : ℤ) (sampler : ℚ → Bool) : Bool :=
  acceptOn b.k (b.history now).1 (b.history now).2 sampler

/-- `googleBreaker.markSuccess()`: `stat.Add(1)`. -/
def googleBreaker.markSuccess (b : googleBreaker) (now : ℤ) : googleBreaker :=
  { b with stat := b.stat.Add now 1 }

/-- `googleBreaker.markFailure()`: `stat.Add(0)`. -/
def googleBreaker.markFailure (b : googleBreaker) (now : ℤ) : googleBreaker :=
  { b with stat := b.stat.Add now 0 }

/-- Outcome of running the wrapped request `req()`: it returns an error
value (possibly `nil` = `none`), or terminates abnormally. -/
inductive ReqOutcome (E : Type) where
  | ret (err : Option E)
  | panicked
  deriving Repr, DecidableEq

/-- What a `doReq` call does: the outcome surfaced to the caller (an
abnormal termination propagates), the breaker state after the recorded
sample(s), and whether `fallback` was invoked. -/
structure DoReqOut (E : Type) where
  result : ReqOutcome E
  b : googleBreaker
  fallbackCalled : Bool

/-- `googleBreaker.doReq(req, fallback, acceptable)`. On rejection: record
a failure, then return `fallback(ErrServiceUnavailable)` if supplied, else
`ErrServiceUnavailable`. On admission: run `req`; the deferred finalizer
records success iff `acceptable(err)` held (failure also on abnormal
termination), and `req`'s own outcome is returned unchanged. -/
def googleBreaker.doReq {E : Type} (b : googleBreaker) (now : ℤ) (sampler : ℚ → Bool)
    (errSU : E) (req : ReqOutcome E) (fallback : Option (Option E → Option E))
    (acceptable : Option E → Bool) : DoReqOut E :=
  if b.accept now sampler then
    match req with
    | .ret err =>
      if acceptable err then { result := .ret err, b := b.markSuccess now, fallbackCalled := false }
      else { result := .ret err, b := b.markFailure now, fallbackCalled := false }
    | .panicked => { result := .panicked, b := b.markFailure now, fallbackCalled := false }
  else
    let b1 := b.markFailure now
    match fallback with
    | some fb => { result := .ret (fb (some errSU)), b := b1, fallbackCalled := true }
    | none => { result := .ret (some errSU), b := b1, fallbackCalled := false }

/-- What a `googleBreaker.allow` call returns: the promise handle (`none`
models Go's `nil` promise), the error, and the breaker state after any
recorded sample. -/
structure AllowOut (E : Type) where
  promise : Option Unit
  err : Option E
  b : googleBreaker

/-- `googleBreaker.allow()`: on rejection record a failure and return
`(nil, ErrServiceUnavailable)`; on admission return a usable promise. -/
def googleBreaker.allow {E : Type} (b : googleBreaker) (now : ℤ) (sampler : ℚ → Bool)
    (errSU : E) : AllowOut E :=
  if b.accept now sampler then { promise := some (), err := none, b := b }
  else { promise := none, err := some errSU, b := b.markFailure now }

/-- `circuitBreaker` of breaker.go (only the `name` field matters to the
claims; the embedded throttle is behaviour, not data). -/
structure circuitBreaker where
  name : String
  deriving Repr, DecidableEq

/-- `circuitBreaker.Name()`. -/
def circuitBreaker.Name (cb : circuitBreaker) : String :=
  cb.name

/-- `NewBreaker(opts...)` as written in breaker.go: it builds `b`, applies
the options, fills in a generated random name (`randName` models the
external `stringx.Rand()`) when none was set — and then returns `nil`
(`none`), discarding `b`. -/
def NewBreaker (opts : List (circuitBreaker → circuitBreaker)) (randName : String) :
    Option circuitBreaker :=
  let b := opts.foldl (fun b opt => opt b) { name := "" }
  let _b := if b.name.length = 0 then { b with name := randName } else b
  none

end breaker

namespace collection

theorem getD_set_self {α : Type} (l : List α) (i : ℕ) (a d : α) (h : i < l.length) :
    (l.set i a).getD i d = a := by
  simp [List.getD_eq_getElem?_getD, List.getElem?_set, h]

theorem getD_set_ne {α : Type} (l : List α) (i j : ℕ) (a d : α) (h : i ≠ j) :
    (l.set i a).getD j d = l.getD j d := by
  simp [List.getD_eq_getElem?_getD, List.getElem?_set, h]

theorem range_map_getD {α : Type} (f : ℕ → α) (n i : ℕ) (d : α) (h : i < n) :
    ((List.range n).map f).getD i d = f i := by
  simp [List.getD_eq_getElem?_getD, List.getElem?_map, List.getElem?_range, h]

/-- The code's saturating `span()` agrees with the spec's
`min(floor(elapsed / interval), size)` whenever the clock did not run
backwards and the interval is positive. -/
theorem RollingWindow.span_eq_min (rw : RollingWindow) (now : ℤ)
    (hi : 0 < rw.interval) (hn : rw.lastTime ≤ now) :
    rw.span now = min ((now - rw.lastTime) / rw.interval) (rw.size : ℤ) := by
  unfold RollingWindow.span
  rw [Int.tdiv_eq_ediv (by omega) (by omega)]
  have hq : 0 ≤ (now - rw.lastTime) / rw.interval :=
    Int.ediv_nonneg (by omega) (by omega)
  by_cases hlt : (now - rw.lastTime) / rw.interval < (rw.size : ℤ)
  · simp only [hq, hlt, and_self, if_true]
    omega
  · simp only [hlt, and_false, if_false]
    omega

theorem RollingWindow.span_nonneg (rw : RollingWindow) (now : ℤ) :
    0 ≤ rw.span now := by
  unfold RollingWindow.span
  dsimp only
  split
  · omega
  · positivity

theorem RollingWindow.span_le_size (rw : RollingWindow) (now : ℤ) :
    rw.span now ≤ (rw.size : ℤ) := by
  unfold RollingWindow.span
  dsimp only
  split
  · omega
  · omega

end collection

namespace breaker

/-- Claim C1: the claim asserts `NewBreaker` returns a usable non-nil
`Breaker` whose `Name()` is the supplied or generated name; the code as
written builds the named `circuitBreaker` and then returns `nil`,
discarding it — so no caller can ever obtain a breaker, whatever the
options or generated name. -/
theorem NewBreaker_returns_nil (opts : List (circuitBreaker → circuitBreaker))
    (randName : String) : NewBreaker opts randName = none := by
  rfl

/-- Claim C4: an all-success history (`accepts = total`, any `total ≥ 0`)
and any history at or below the protection floor (`total ≤ 5`) make the
drop ratio non-positive, so `accept` admits whatever the sampler would
say; at cold start (`total = 0`) the ratio is `(0 - protection - k)/1`,
strictly negative. -/
theorem accept_allSuccess_or_lowTraffic (accepts total : ℤ)
    (ha : 0 ≤ accepts) (ht : 0 ≤ total)
    (hcase : accepts = total ∨ total ≤ protection) :
    dropRatio k accepts total ≤ 0 ∧
    (∀ sampler : ℚ → Bool, acceptOn k accepts total sampler = true) ∧
    dropRatio k 0 0 = (0 - (protection : ℚ) - k) / 1 ∧
    dropRatio k 0 0 < 0 := by
  have hdrop : dropRatio k accepts total ≤ 0 := by
    unfold dropRatio protection k
    apply div_nonpos_of_nonpos_of_nonneg
    · rcases hcase with h | h
      · subst h
        push_cast
        ring_nf
        norm_num
      · unfold protection at h
        push_cast
        have : (total : ℚ) ≤ 5 := by exact_mod_cast h
        have : (0 : ℚ) ≤ (accepts : ℚ) := by exact_mod_cast ha
        linarith
    · push_cast
      have : (0 : ℚ) ≤ (total : ℚ) := by exact_mod_cast ht
      linarith
  refine ⟨hdrop, ?_, ?_, ?_⟩
  · intro sampler
    unfold acceptOn
    simp [hdrop]
  · unfold dropRatio protection k
    norm_num
  · unfold dropRatio protection k
    norm_num

/-- Claim C5: when `accept()` admits, `doReq` surfaces exactly the
outcome of `req()` (its error on normal return, the abnormal termination
otherwise), never invokes `fallback`, and records exactly one sample —
a success iff `acceptable(err)` held, a failure otherwise, including on
abnormal termination. -/
theorem doReq_admitted_spec {E : Type} (b : googleBreaker) (now : ℤ)
    (sampler : ℚ → Bool) (errSU : E) (req : ReqOutcome E)
    (fallback : Option (Option E → Option E)) (acceptable : Option E → Bool)
    (h : b.accept now sampler = true) :
    (b.doReq now sampler errSU req fallback acceptable).result = req ∧
    (b.doReq now sampler errSU req fallback acceptable).fallbackCalled = false ∧
    (b.doReq now sampler errSU req fallback acceptable).b =
      (match req with
       | .ret err => if acceptable err then b.markSuccess now else b.markFailure now
       | .panicked => b.markFailure now) := by
  unfold googleBreaker.doReq
  rw [h]
  cases req with
  | ret err =>
    by_cases hacc : acceptable err = true
    · simp [hacc]
    · simp at hacc
      simp [hacc]
  | panicked => simp

/-- Claim C6: when `accept()` rejects, `doReq` records a failure sample
and returns `fallback(ErrServiceUnavailable)` when a fallback is supplied
and `ErrServiceUnavailable` otherwise; `allow` records a failure and
returns `ErrServiceUnavailable` with no promise handle. -/
theorem rejected_path_spec {E : Type} (b : googleBreaker) (now : ℤ)
    (sampler : ℚ → Bool) (errSU : E) (req : ReqOutcome E)
    (fallback : Option (Option E → Option E)) (acceptable : Option E → Bool)
    (h : b.accept now sampler = false) :
    (b.doReq now sampler errSU req fallback acceptable).b = b.markFailure now ∧
    (b.doReq now sampler errSU req fallback acceptable).result =
      (match fallback with
       | some fb => ReqOutcome.ret (fb (some errSU))
       | none => ReqOutcome.ret (some errSU)) ∧
    (b.doReq now sampler errSU req fallback acceptable).fallbackCalled = fallback.isSome ∧
    (b.allow now sampler errSU : AllowOut E).promise = none ∧
    (b.allow now sampler errSU : AllowOut E).err = some errSU ∧
    (b.allow now sampler errSU : AllowOut E).b = b.markFailure now := by
  unfold googleBreaker.doReq googleBreaker.allow
  rw [h]
  cases fallback with
  | some fb => simp
  | none => simp

end breaker

namespace collection

/-- Claim C8: `Reduce` is read-only — the receiver state it hands back is
field-for-field the state it was given (offset, lastTime, every bucket) —
and hence at a fixed clock reading two consecutive `Reduce` calls with no
intervening `Add` visit identical bucket lists and yield the same
breaker history. -/
theorem Reduce_readonly_idempotent (rw : RollingWindow) (now : ℤ) :
    (rw.Reduce now).1.offset = rw.offset ∧
    (rw.Reduce now).1.lastTime = rw.lastTime ∧
    (rw.Reduce now).1.win.buckets = rw.win.buckets ∧
    (rw.Reduce now).1 = rw ∧
    ((rw.Reduce now).1.Reduce now).2 = (rw.Reduce now).2 := by
  refine ⟨rfl, rfl, rfl, rfl, rfl⟩

theorem foldl_IgnoreCurrentBucket_fields (opts : List (RollingWindow → RollingWindow))
    (hopts : ∀ o ∈ opts, o = IgnoreCurrentBucket) (w : RollingWindow) :
    (opts.foldl (fun w opt => opt w) w).size = w.size ∧
    (opts.foldl (fun w opt => opt w) w).win = w.win ∧
    (opts.foldl (fun w opt => opt w) w).interval = w.interval ∧
    (opts.foldl (fun w opt => opt w) w).offset = w.offset ∧
    (opts.foldl (fun w opt => opt w) w).lastTime = w.lastTime := by
  induction opts generalizing w with
  | nil => exact ⟨rfl, rfl, rfl, rfl, rfl⟩
  | cons o rest ih =>
    have ho : o = IgnoreCurrentBucket := hopts o (by simp)
    have hrest : ∀ o ∈ rest, o = IgnoreCurrentBucket := fun o h => hopts o (by simp [h])
    subst ho
    simpa [IgnoreCurrentBucket] using ih hrest (IgnoreCurrentBucket w)

/-- Claim C9: `NewRollingWindow` fails fast (panics, i.e. `none`) on any
`size < 1` — it never clamps — and for `size ≥ 1` it yields a window of
exactly `size` zeroed buckets, `offset = 0` and `lastTime` set to the
clock reading at construction, for any combination of the supported
options. -/
theorem NewRollingWindow_spec (size interval now : ℤ)
    (opts : List (RollingWindow → RollingWindow))
    (hopts : ∀ o ∈ opts, o = IgnoreCurrentBucket) :
    (size < 1 → NewRollingWindow size interval now opts = none) ∧
    (1 ≤ size → ∃ w, NewRollingWindow size interval now opts = some w ∧
      w.size = size.toNat ∧
      w.win.buckets = List.replicate size.toNat zeroBucket ∧
      w.win.buckets.length = size.toNat ∧
      (∀ bk ∈ w.win.buckets, bk = zeroBucket) ∧
      w.lastTime = now ∧
      w.offset = 0) := by
  constructor
  · intro hlt
    unfold NewRollingWindow
    simp [hlt]
  · intro hge
    unfold NewRollingWindow
    have hnot : ¬ size < 1 := by omega
    rw [if_neg hnot]
    refine ⟨_, rfl, ?_⟩
    obtain ⟨h1, h2, h3, h4, h5⟩ := foldl_IgnoreCurrentBucket_fields opts hopts _
    refine ⟨h1, ?_, ?_, ?_, h5, h4⟩
    · rw [h2]
      simp [newWindow]
    · rw [h2]
      simp [newWindow]
    · rw [h2]
      intro bk hbk
      simp [newWindow] at hbk
      exact hbk.2

end collection

namespace collection

theorem resetFold_size (ps : List ℕ) (w : Window) :
    (ps.foldl (fun w p => w.resetBucket p) w).size = w.size ∧
    (ps.foldl (fun w p => w.resetBucket p) w).buckets.length = w.buckets.length := by
  induction ps generalizing w with
  | nil => exact ⟨rfl, rfl⟩
  | cons p rest ih =>
    have hstep : (w.resetBucket p).size = w.size ∧
        (w.resetBucket p).buckets.length = w.buckets.length := by
      simp [Window.resetBucket]
    obtain ⟨h1, h2⟩ := ih (w.resetBucket p)
    exact ⟨by simp [List.foldl_cons, h1, hstep.1], by simp [List.foldl_cons, h2, hstep.2]⟩

theorem resetFold_getD_not_mem (ps : List ℕ) (w : Window) (j : ℕ)
    (hj : ∀ p ∈ ps, p % w.size ≠ j) :
    (ps.foldl (fun w p => w.resetBucket p) w).buckets.getD j zeroBucket =
      w.buckets.getD j zeroBucket := by
  induction ps generalizing w with
  | nil => rfl
  | cons p rest ih =>
    have hsz : (w.resetBucket p).size = w.size := by simp [Window.resetBucket]
    have hrest : ∀ q ∈ rest, q % (w.resetBucket p).size ≠ j := by
      intro q hq
      rw [hsz]
      exact hj q (by simp [hq])
    have hstep : (w.resetBucket p).buckets.getD j zeroBucket = w.buckets.getD j zeroBucket := by
      unfold Window.resetBucket
      exact getD_set_ne _ _ _ _ _ (hj p (by simp))
    rw [List.foldl_cons, ih (w.resetBucket p) hrest, hstep]

theorem resetFold_getD_mem (ps : List ℕ) (w : Window) (j : ℕ)
    (hmem : j ∈ ps.map (fun p => p % w.size)) (hlt : j < w.buckets.length) :
    (ps.foldl (fun w p => w.resetBucket p) w).buckets.getD j zeroBucket = zeroBucket := by
  induction ps generalizing w with
  | nil => simp at hmem
  | cons p rest ih
    =>
    have hsz : (w.resetBucket p).size = w.size := by simp [Window.resetBucket]
    have hlen : (w.resetBucket p).buckets.length = w.buckets.length := by
      simp [Window.resetBucket]
    by_cases hr : j ∈ rest.map (fun q => q % (w.resetBucket p).size)
    · rw [List.foldl_cons]
      exact ih (w.resetBucket p) hr (by omega)
    · have hjp : j = p % w.size := by
        simp only [List.map_cons, List.mem_cons] at hmem
        rcases hmem with h | h
        · omega
        · exfalso
          apply hr
          rw [hsz]
          exact h
      have hstep : (w.resetBucket p).buckets.getD j zeroBucket = zeroBucket := by
        unfold Window.resetBucket
        rw [hjp]
        rw [getD_set_self _ _ _ _ (by omega)]
        rfl
      rw [List.foldl_cons]
      have hnot : ∀ q ∈ rest, q % (w.resetBucket p).size ≠ j := by
        intro q hq
        intro hcontra
        apply hr
        rw [List.mem_map]
        exact ⟨q, hq, hcontra⟩
      rw [resetFold_getD_not_mem rest (w.resetBucket p) j hnot, hstep]

theorem resetRangeFold_getD (w : Window) (sz off n : ℕ) (hsz : w.size = sz)
    (hlen : w.buckets.length = sz) (hpos : 0 < sz) (i : ℕ) (hi : i < n) :
    ((List.range n).foldl (fun w i => w.resetBucket ((off + i + 1) % sz)) w).buckets.getD
      ((off + i + 1) % sz) zeroBucket = zeroBucket := by
  have hconv : (List.range n).foldl (fun w i => w.resetBucket ((off + i + 1) % sz)) w
      = ((List.range n).map (fun i => (off + i + 1) % sz)).foldl
          (fun w p => w.resetBucket p) w := by
    rw [List.foldl_map]
  rw [hconv]
  apply resetFold_getD_mem
  · rw [List.mem_map]
    refine ⟨(off + i + 1) % sz, ?_, ?_⟩
    · rw [List.mem_map]
      exact ⟨i, List.mem_range.mpr hi, rfl⟩
    · rw [hsz]
      exact Nat.mod_mod_of_dvd _ dvd_rfl
  · rw [hlen]
    exact Nat.mod_lt _ hpos

end collection

namespace collection

/-- Claim C2: on every `Add` whose span (computed as
`min(floor((now - lastTime)/interval), size)`) is at least 1, the
`updateOffset` step of `Add` zeroes the buckets at `(offset+i+1) mod size`
for `i in 0..span-1`, `offset` becomes `(offset+span) mod size`, and
`lastTime` becomes `now - ((now - lastTime) mod interval)` — the latest
interval boundary at or before `now` (at most `interval` behind `now`,
an exact multiple of `interval` past the old mark), not simply `now`;
when the span is 0, `Add` changes neither `offset` nor `lastTime` (the
whole `updateOffset` step is the identity) and resets no bucket. -/
theorem updateOffset_Add_spec (rw : RollingWindow) (now : ℤ) (spanN : ℕ)
    (hi : 0 < rw.interval) (hn : rw.lastTime ≤ now)
    (hlen : rw.win.buckets.length = rw.size) (hsz : rw.win.size = rw.size)
    (hpos : 0 < rw.size)
    (hspan : (spanN : ℤ) = min ((now - rw.lastTime) / rw.interval) (rw.size : ℤ)) :
    (1 ≤ spanN →
      (∀ i < spanN, (rw.updateOffset now).win.buckets.getD
          ((rw.offset + i + 1) % rw.size) zeroBucket = zeroBucket) ∧
      (rw.updateOffset now).offset = (rw.offset + spanN) % rw.size ∧
      (rw.updateOffset now).lastTime = now - (now - rw.lastTime) % rw.interval ∧
      (rw.updateOffset now).lastTime ≤ now ∧
      now - (rw.updateOffset now).lastTime < rw.interval ∧
      rw.interval ∣ ((rw.updateOffset now).lastTime - rw.lastTime) ∧
      (∀ v, (rw.Add now v).offset = (rw.offset + spanN) % rw.size ∧
            (rw.Add now v).lastTime = now - (now - rw.lastTime) % rw.interval)) ∧
    (spanN = 0 →
      rw.updateOffset now = rw ∧
      (∀ v, (rw.Add now v).offset = rw.offset ∧ (rw.Add now v).lastTime = rw.lastTime)) := by
  have hs : rw.span now = (spanN : ℤ) := by
    rw [RollingWindow.span_eq_min rw now hi hn]
    omega
  constructor
  · intro hone
    have hkey : rw.updateOffset now =
        { rw with
          win := (List.range spanN).foldl
            (fun w i => w.resetBucket ((rw.offset + i + 1) % rw.size)) rw.win,
          offset := (rw.offset + spanN) % rw.size,
          lastTime := now - (now - rw.lastTime).tmod rw.interval } := by
      unfold RollingWindow.updateOffset
      rw [hs]
      rw [if_neg (by omega : ¬ (spanN : ℤ) ≤ 0)]
      simp
    have htmod : (now - rw.lastTime).tmod rw.interval = (now - rw.lastTime) % rw.interval :=
      Int.tmod_eq_emod (by omega) (by omega)
    have hmodnn : 0 ≤ (now - rw.lastTime) % rw.interval :=
      Int.emod_nonneg _ (by omega)
    have hmodlt : (now - rw.lastTime) % rw.interval < rw.interval :=
      Int.emod_lt_of_pos _ hi
    refine ⟨?_, ?_, ?_, ?_, ?_, ?_, ?_⟩
    · intro i hilt
      rw [hkey]
      exact resetRangeFold_getD rw.win rw.size rw.offset spanN hsz hlen hpos i hilt
    · rw [hkey]
    · rw [hkey]
      simp [htmod]
    · rw [hkey]
      simp [htmod]
      omega
    · rw [hkey]
      simp [htmod]
      omega
    · rw [hkey]
      simp only [htmod]
      have := Int.ediv_add_emod (now - rw.lastTime) rw.interval
      refine ⟨(now - rw.lastTime) / rw.interval, by omega⟩
    · intro v
      constructor
      · show ({ rw.updateOffset now with
            win := (rw.updateOffset now).win.add (rw.updateOffset now).offset v }).offset
          = (rw.offset + spanN) % rw.size
        rw [hkey]
      · show ({ rw.updateOffset now with
            win := (rw.updateOffset now).win.add (rw.updateOffset now).offset v }).lastTime
          = now - (now - rw.lastTime) % rw.interval
        rw [hkey]
        simp [htmod]
  · intro hzero
    have huo : rw.updateOffset now = rw := by
      unfold RollingWindow.updateOffset
      rw [hs, hzero]
      simp
    refine ⟨huo, ?_⟩
    intro v
    constructor
    · show ({ rw.updateOffset now with
          win := (rw.updateOffset now).win.add (rw.updateOffset now).offset v }).offset
        = rw.offset
      rw [huo]
    · show ({ rw.updateOffset now with
          win := (rw.updateOffset now).win.add (rw.updateOffset now).offset v }).lastTime
        = rw.lastTime
      rw [huo]

end collection

namespace collection

theorem Window.reduce_length (w : Window) (start count : ℕ) :
    (w.reduce start count).length = count := by
  simp [Window.reduce]

theorem Window.reduce_getD (w : Window) (start count i : ℕ) (h : i < count) :
    (w.reduce start count).getD i zeroBucket =
      w.buckets.getD ((start + i) % w.size) zeroBucket := by
  unfold Window.reduce
  exact range_map_getD _ _ _ _ h

/-- Claim C3: `Reduce` invokes `fn` on exactly `size - span` buckets
(`span = min(floor(elapsed/interval), size)`), starting at
`(offset + span + 1) mod size` and proceeding consecutively modulo `size`;
except that with `span = 0` and `ignoreCurrent` set it is exactly
`size - 1` buckets; and with `size - span = 0` (a fully stale window) it
invokes `fn` on no bucket at all. -/
theorem Reduce_spec (rw : RollingWindow) (now : ℤ) (spanN : ℕ)
    (hi : 0 < rw.interval) (hn : rw.lastTime ≤ now)
    (hsz : rw.win.size = rw.size) (hpos : 0 < rw.size)
    (hspan : (spanN : ℤ) = min ((now - rw.lastTime) / rw.interval) (rw.size : ℤ)) :
    (¬(spanN = 0 ∧ rw.ignoreCurrent = true) →
      (rw.Reduce now).2.length = rw.size - spanN ∧
      ∀ i < rw.size - spanN, (rw.Reduce now).2.getD i zeroBucket =
        rw.win.buckets.getD ((rw.offset + spanN + 1 + i) % rw.size) zeroBucket) ∧
    ((spanN = 0 ∧ rw.ignoreCurrent = true) →
      (rw.Reduce now).2.length = rw.size - 1 ∧
      ∀ i < rw.size - 1, (rw.Reduce now).2.getD i zeroBucket =
        rw.win.buckets.getD ((rw.offset + 0 + 1 + i) % rw.size) zeroBucket) ∧
    (rw.size - spanN = 0 → (rw.Reduce now).2 = []) := by
  have hs : rw.span now = (spanN : ℤ) := by
    rw [RollingWindow.span_eq_min rw now hi hn]
    omega
  have hle : spanN ≤ rw.size := by omega
  refine ⟨?_, ?_, ?_⟩
  · intro hcond
    have hred : (rw.Reduce now).2 =
        if 0 < (rw.size : ℤ) - (spanN : ℤ) then
          rw.win.reduce ((rw.offset + spanN + 1) % rw.size) ((rw.size : ℤ) - (spanN : ℤ)).toNat
        else [] := by
      unfold RollingWindow.Reduce
      rw [hs]
      have : ¬((spanN : ℤ) = 0 ∧ rw.ignoreCurrent = true) := by
        intro ⟨h1, h2⟩
        exact hcond ⟨by omega, h2⟩
      simp only [this, if_false, Int.toNat_natCast]
    by_cases hlt : spanN < rw.size
    · rw [hred, if_pos (by omega)]
      have htn : ((rw.size : ℤ) - (spanN : ℤ)).toNat = rw.size - spanN := by omega
      rw [htn]
      refine ⟨Window.reduce_length _ _ _, ?_⟩
      intro i hilt
      rw [Window.reduce_getD _ _ _ _ hilt, hsz, Nat.mod_add_mod]
    · rw [hred, if_neg (by omega)]
      refine ⟨by simp; omega, ?_⟩
      intro i hilt
      omega
  · intro ⟨h0, hic⟩
    have hred : (rw.Reduce now).2 =
        if 0 < (rw.size : ℤ) - 1 then
          rw.win.reduce ((rw.offset + spanN + 1) % rw.size) ((rw.size : ℤ) - 1).toNat
        else [] := by
      unfold RollingWindow.Reduce
      rw [hs]
      have : ((spanN : ℤ) = 0 ∧ rw.ignoreCurrent = true) := ⟨by omega, hic⟩
      simp only [this, and_self, if_true, Int.toNat_natCast, hic]
      simp [h0]
    by_cases hlt : 1 < rw.size
    · rw [hred, if_pos (by omega)]
      have htn : ((rw.size : ℤ) - 1).toNat = rw.size - 1 := by omega
      rw [htn]
      refine ⟨Window.reduce_length _ _ _, ?_⟩
      intro i hilt
      rw [Window.reduce_getD _ _ _ _ hilt, hsz, Nat.mod_add_mod, h0]
    · rw [hred, if_neg (by omega)]
      refine ⟨by simp; omega, ?_⟩
      intro i hilt
      omega
  · intro hzero
    have hsp : spanN = rw.size := by omega
    have hcond : ¬((spanN : ℤ) = 0 ∧ rw.ignoreCurrent = true) := by
      intro ⟨h1, _⟩
      omega
    unfold RollingWindow.Reduce
    rw [hs]
    simp only [hcond, if_false, Int.toNat_natCast]
    rw [if_neg (by omega)]

end collection

namespace breaker

/-- Claim C7: once at least `size * interval` has elapsed since the last
write, the span saturates at `size`, `Reduce` folds zero buckets, the
history is `accepts = 0, total = 0`, and `accept()` admits every request
whatever the sampler says — a fully stale window behaves like a fresh
breaker. -/
theorem staleWindow_recovery (b : googleBreaker) (now : ℤ)
    (hi : 0 < b.stat.interval) (hpos : 0 < b.stat.size) (hk : 0 ≤ b.k)
    (hstale : (b.stat.size : ℤ) * b.stat.interval ≤ now - b.stat.lastTime) :
    b.stat.span now = (b.stat.size : ℤ) ∧
    (b.stat.Reduce now).2 = [] ∧
    b.history now = (0, 0) ∧
    (∀ sampler : ℚ → Bool, b.accept now sampler = true) := by
  have hprod : 0 < (b.stat.size : ℤ) * b.stat.interval := by
    apply mul_pos
    · exact_mod_cast hpos
    · exact hi
  have hn : b.stat.lastTime ≤ now := by omega
  have hdiv : (b.stat.size : ℤ) ≤ (now - b.stat.lastTime) / b.stat.interval :=
    (Int.le_ediv_iff_mul_le hi).mpr hstale
  have hspan : b.stat.span now = (b.stat.size : ℤ) := by
    rw [collection.RollingWindow.span_eq_min b.stat now hi hn]
    omega
  have hreduce : (b.stat.Reduce now).2 = [] := by
    unfold collection.RollingWindow.Reduce
    rw [hspan]
    have hcond : ¬((b.stat.size : ℤ) = 0 ∧ b.stat.ignoreCurrent = true) := by
      intro ⟨h1, _⟩
      omega
    simp only [hcond, if_false]
    rw [if_neg (by omega)]
  have hhist : b.history now = (0, 0) := by
    unfold googleBreaker.history
    rw [hreduce]
    rfl
  refine ⟨hspan, hreduce, hhist, ?_⟩
  intro sampler
  unfold googleBreaker.accept
  rw [hhist]
  unfold acceptOn
  have hdr : dropRatio b.k 0 0 ≤ 0 := by
    unfold dropRatio protection
    norm_num
    linarith
  simp [hdr]

end breaker

namespace breaker

/-- `numHistoryReasons = 5`. -/
def numHistoryReasons : ℕ := 5

/-- breaker.go `errorWindow` (the lock is elided; the timestamp the Go
code formats into each entry is an explicit argument of `add`). -/
structure errorWindow where
  reasons : List String
  index : ℕ
  count : ℕ
  deriving Repr, DecidableEq

/-- The zero-valued `errorWindow` a `circuitBreaker` starts with. -/
def errorWindow.empty : errorWindow :=
  { reasons := List.replicate numHistoryReasons "", index := 0, count := 0 }

/-- `errorWindow.add(reason)`: store the timestamped reason at `index`,
advance `index` modulo the capacity, saturate `count` at the capacity. -/
def errorWindow.add (ew : errorWindow) (timestamp reason : String) : errorWindow :=
  { reasons := ew.reasons.set ew.index (timestamp ++ " " ++ reason),
    index := (ew.index + 1) % numHistoryReasons,
    count := min (ew.count + 1) numHistoryReasons }

/-- The list of reason strings `errorWindow.String()` walks, in emission
order: `count` entries, from slot `index-1` backwards (wrapping). -/
def errorWindow.reasonsList (ew : errorWindow) : List String :=
  (List.range ew.count).map (fun t =>
    ew.reasons.getD
      ((((ew.index : ℤ) - 1 - (t : ℤ)) + (numHistoryReasons : ℤ)).tmod
        (numHistoryReasons : ℤ)).toNat "")

/-- `errorWindow.String()`: the walked reasons joined with newlines. -/
def errorWindow.string (ew : errorWindow) : String :=
  String.intercalate "\n" ew.reasonsList

/-- A whole history of `add` calls against the zero-valued window. -/
def applyAdds (l : List (String × String)) : errorWindow :=
  l.foldl (fun ew p => ew.add p.1 p.2) errorWindow.empty

theorem exists_five {α : Type} (l : List α) (h : l.length = 5) :
    ∃ a b c d e : α, l = [a, b, c, d, e] := by
  obtain _ | ⟨a, _ | ⟨b, _ | ⟨c, _ | ⟨d, _ | ⟨e, _ | ⟨f, rest⟩⟩⟩⟩⟩⟩ := l <;>
    simp only [List.length_cons, List.length_nil] at h <;>
    first
      | omega
      | exact ⟨a, b, c, d, e, rfl⟩

theorem add_reasonsList_step (ew : errorWindow) (ts r : String)
    (hlen : ew.reasons.length = numHistoryReasons)
    (hidx : ew.index < numHistoryReasons) (hcnt : ew.count ≤ numHistoryReasons) :
    (ew.add ts r).reasonsList = (ts ++ " " ++ r) :: ew.reasonsList.take 4 := by
  obtain ⟨rs, idx, cnt⟩ := ew
  simp only [numHistoryReasons] at hlen hidx hcnt
  obtain ⟨a, b, c, d, e, rfl⟩ := exists_five rs hlen
  interval_cases idx <;> interval_cases cnt <;> with_unfolding_all rfl

end breaker

namespace breaker

/-- Claim C10: under every sequence of `add` calls against a fresh
`errorWindow`, `count` stays at most 5 and equals `min(#adds, 5)`,
`index` is always the next write slot (`#adds mod 5`, so the 6th and
later reasons overwrite the oldest stored slot first), and `String()`
emits exactly the `count` retained reasons most-recent-first — the last
`min(#adds, 5)` formatted entries, newest at the top. -/
theorem errorWindow_invariant (l : List (String × String)) :
    (applyAdds l).count = min l.length numHistoryReasons ∧
    (applyAdds l).count ≤ numHistoryReasons ∧
    (applyAdds l).index = l.length % numHistoryReasons ∧
    (applyAdds l).reasons.length = numHistoryReasons ∧
    (applyAdds l).reasonsList =
      (l.map (fun p => p.1 ++ " " ++ p.2)).reverse.take (min l.length numHistoryReasons) ∧
    (applyAdds l).string = String.intercalate "\n"
      ((l.map (fun p => p.1 ++ " " ++ p.2)).reverse.take (min l.length numHistoryReasons)) := by
  induction l using List.reverseRecOn with
  | nil =>
    refine ⟨rfl, by simp [applyAdds, errorWindow.empty, numHistoryReasons], rfl, rfl, rfl, rfl⟩
  | append_singleton l x ih =>
    obtain ⟨ihc, ihle, ihi, ihlen, ihlist, _⟩ := ih
    have happ : applyAdds (l ++ [x]) = (applyAdds l).add x.1 x.2 := by
      unfold applyAdds
      rw [List.foldl_append]
      rfl
    have hidx : (applyAdds l).index < numHistoryReasons := by
      rw [ihi]
      simp only [numHistoryReasons]
      omega
    have hcnt : (applyAdds l).count = min (l.length + 1) numHistoryReasons - 1 ∨
        (applyAdds l).count ≤ numHistoryReasons := Or.inr ihle
    have hlen1 : (l ++ [x]).length = l.length + 1 := by simp
    have hstep := add_reasonsList_step (applyAdds l) x.1 x.2 ihlen hidx ihle
    have hlist : (applyAdds (l ++ [x])).reasonsList =
        ((l ++ [x]).map (fun p => p.1 ++ " " ++ p.2)).reverse.take
          (min (l ++ [x]).length numHistoryReasons) := by
      rw [happ, hstep, ihlist]
      rw [List.map_append, List.reverse_append]
      simp only [List.map_cons, List.map_nil, List.reverse_cons, List.reverse_nil,
        List.nil_append, List.singleton_append, hlen1]
      rw [List.take_take]
      have hm : min 4 (min l.length numHistoryReasons) = min l.length 4 := by
        simp only [numHistoryReasons]
        omega
      rw [hm]
      have hm2 : min (l.length + 1) numHistoryReasons = (min l.length 4) + 1 := by
        simp only [numHistoryReasons]
        omega
      rw [hm2, List.take_succ_cons]
    refine ⟨?_, ?_, ?_, ?_, hlist, ?_⟩
    · rw [happ]
      show min ((applyAdds l).count + 1) numHistoryReasons = _
      rw [ihc, hlen1]
      simp only [numHistoryReasons]
      omega
    · rw [happ]
      show min ((applyAdds l).count + 1) numHistoryReasons ≤ _
      simp only [numHistoryReasons]
      omega
    · rw [happ]
      show ((applyAdds l).index + 1) % numHistoryReasons = _
      rw [ihi, hlen1]
      simp only [numHistoryReasons]
      omega
    · rw [happ]
      show ((applyAdds l).reasons.set (applyAdds l).index _).length = _
      rw [List.length_set, ihlen]
    · show String.intercalate "\n" (applyAdds (l ++ [x])).reasonsList = _
      rw [hlist]

end breaker

namespace collection

/-- Concrete three-bucket window for the C2 witness: three occupied
buckets, one and a half intervals after its last write. -/
def rwWitC2 : RollingWindow where
  size := 3
  win := { buckets := [{ Sum := 1, Count := 1 }, { Sum := 2, Count := 1 },
    { Sum := 3, Count := 1 }], size := 3 }
  interval := 10
  offset := 0
  ignoreCurrent := false
  lastTime := 0

/-- Witness for claim C2: on `rwWitC2` at `now = 15` the update zeroes
bucket 1, moves `offset` to 1, and realigns `lastTime` to the boundary
10, not to `now = 15`. -/
theorem updateOffset_Add_spec_witness :
    (0 : ℤ) < 10 ∧ (1 : ℤ) = min (((15 : ℤ) - 0) / 10) ((3 : ℕ) : ℤ) ∧
    (rwWitC2.updateOffset 15).offset = 1 ∧
    (rwWitC2.updateOffset 15).lastTime = 10 ∧
    (rwWitC2.updateOffset 15).win.buckets.getD 1 zeroBucket = zeroBucket := by
  refine ⟨by decide, by decide, ?_, ?_, ?_⟩
  · exact ((updateOffset_Add_spec rwWitC2 15 1 (by decide) (by decide) (by decide) (by decide)
      (by decide) (by decide)).1 (by decide)).2.1
  · exact ((updateOffset_Add_spec rwWitC2 15 1 (by decide) (by decide) (by decide) (by decide)
      (by decide) (by decide)).1 (by decide)).2.2.1
  · exact ((updateOffset_Add_spec rwWitC2 15 1 (by decide) (by decide) (by decide) (by decide)
      (by decide) (by decide)).1 (by decide)).1 0 (by decide)

/-- Concrete three-bucket window for the C3 witness (same state as the
C2 one, read instead of written). -/
def rwWitC3 : RollingWindow where
  size := 3
  win := { buckets := [{ Sum := 1, Count := 1 }, { Sum := 2, Count := 1 },
    { Sum := 3, Count := 1 }], size := 3 }
  interval := 10
  offset := 0
  ignoreCurrent := false
  lastTime := 0

/-- Witness for claim C3: on `rwWitC3` at `now = 15` (span 1) `Reduce`
folds exactly `3 - 1 = 2` buckets, buckets 2 and 0 in that order. -/
theorem Reduce_spec_witness :
    (rwWitC3.Reduce 15).2.length = 2 ∧
    (rwWitC3.Reduce 15).2.getD 0 zeroBucket = { Sum := 3, Count := 1 } ∧
    (rwWitC3.Reduce 15).2.getD 1 zeroBucket = { Sum := 1, Count := 1 } := by
  refine ⟨?_, ?_, ?_⟩
  · exact ((Reduce_spec rwWitC3 15 1 (by decide) (by decide) (by decide) (by decide)
      (by decide)).1 (by decide)).1
  · exact ((Reduce_spec rwWitC3 15 1 (by decide) (by decide) (by decide) (by decide)
      (by decide)).1 (by decide)).2 0 (by decide)
  · exact ((Reduce_spec rwWitC3 15 1 (by decide) (by decide) (by decide) (by decide)
      (by decide)).1 (by decide)).2 1 (by decide)

/-- Witness for claim C9: `size = 0` panics; `size = 3` with the
`IgnoreCurrentBucket` option yields three zeroed buckets, `offset = 0`
and `lastTime = 7` (the construction instant). -/
theorem NewRollingWindow_spec_witness :
    NewRollingWindow 0 10 7 [] = none ∧
    (∃ w, NewRollingWindow 3 10 7 [IgnoreCurrentBucket] = some w ∧
      w.size = 3 ∧
      w.win.buckets = List.replicate 3 zeroBucket ∧
      w.win.buckets.length = 3 ∧
      (∀ bk ∈ w.win.buckets, bk = zeroBucket) ∧
      w.lastTime = 7 ∧
      w.offset = 0) := by
  constructor
  · exact (NewRollingWindow_spec 0 10 7 [] (by simp)).1 (by decide)
  · exact (NewRollingWindow_spec 3 10 7 [IgnoreCurrentBucket]
      (by intro o ho; simpa using ho)).2 (by decide)

end collection

namespace breaker

/-- Witness for claim C4: the all-success history `(7, 7)` has a
non-positive drop ratio and is admitted even by a sampler that always
fires; the cold-start ratio is strictly negative. -/
theorem accept_allSuccess_or_lowTraffic_witness :
    (0 : ℤ) ≤ 7 ∧
    dropRatio k 7 7 ≤ 0 ∧
    acceptOn k 7 7 (fun _ => true) = true ∧
    dropRatio k 0 0 < 0 := by
  have h := accept_allSuccess_or_lowTraffic 7 7 (by decide) (by decide) (Or.inl rfl)
  exact ⟨by decide, h.1, h.2.1 (fun _ => true), h.2.2.2⟩

/-- Fresh one-bucket breaker for the C5 witness: its empty history makes
`accept` admit. -/
def bWitC5 : googleBreaker where
  k := k
  stat :=
    { size := 1
      win := { buckets := [{ Sum := 0, Count := 0 }], size := 1 }
      interval := 10
      offset := 0
      ignoreCurrent := false
      lastTime := 0 }

/-- Witness for claim C5: `bWitC5` admits; wrapping a request that
returns the error "boom" under an `acceptable` that rejects every
non-nil error surfaces "boom" itself, calls no fallback, and records
exactly one failure sample. -/
theorem doReq_admitted_spec_witness :
    (bWitC5.doReq 0 (fun _ => false) "svc" (.ret (some "boom")) none
      (fun e => e.isNone)).result = .ret (some "boom") ∧
    (bWitC5.doReq 0 (fun _ => false) "svc" (.ret (some "boom")) none
      (fun e => e.isNone)).fallbackCalled = false ∧
    (bWitC5.doReq 0 (fun _ => false) "svc" (.ret (some "boom")) none
      (fun e => e.isNone)).b = bWitC5.markFailure 0 := by
  have h := doReq_admitted_spec bWitC5 0 (fun _ => false) "svc"
    (.ret (some "boom")) none (fun e => e.isNone) (by with_unfolding_all rfl)
  exact ⟨h.1, h.2.1, h.2.2⟩

/-- Failing-history one-bucket breaker for the C6 witness: 100 failed
attempts make the drop ratio positive, and the always-firing sampler
turns that into a rejection. -/
def bWitC6 : googleBreaker where
  k := k
  stat :=
    { size := 1
      win := { buckets := [{ Sum := 0, Count := 100 }], size := 1 }
      interval := 10
      offset := 0
      ignoreCurrent := false
      lastTime := 0 }

/-- Witness for claim C6: `bWitC6` rejects — `doReq` records the failure
and surfaces the sentinel error, and `allow` yields no promise. -/
theorem rejected_path_spec_witness :
    (bWitC6.doReq 0 (fun _ => true) "svc" (.ret none) none
      (fun e => e.isNone)).b = bWitC6.markFailure 0 ∧
    (bWitC6.doReq 0 (fun _ => true) "svc" (.ret none) none
      (fun e => e.isNone)).result = .ret (some "svc") ∧
    (bWitC6.allow 0 (fun _ => true) "svc").promise = none ∧
    (bWitC6.allow 0 (fun _ => true) "svc").err = some "svc" := by
  have h := rejected_path_spec bWitC6 0 (fun _ => true) "svc"
    (.ret none) none (fun e => e.isNone) (by with_unfolding_all rfl)
  exact ⟨h.1, h.2.1, h.2.2.2.1, h.2.2.2.2.1⟩

/-- Two-bucket breaker with two old successes for the C7 witness. -/
def bWitC7 : googleBreaker where
  k := k
  stat :=
    { size := 2
      win := { buckets := [{ Sum := 1, Count := 1 }, { Sum := 1, Count := 1 }], size := 2 }
      interval := 10
      offset := 0
      ignoreCurrent := false
      lastTime := 0 }

/-- Witness for claim C7: reading `bWitC7` two full intervals after its
last write — span saturates at 2, the fold is empty, the history is
zero, and even an always-firing sampler admits. -/
theorem staleWindow_recovery_witness :
    bWitC7.stat.span 20 = 2 ∧
    (bWitC7.stat.Reduce 20).2 = [] ∧
    bWitC7.history 20 = (0, 0) ∧
    bWitC7.accept 20 (fun _ => true) = true := by
  have h := staleWindow_recovery bWitC7 20 (by decide) (by decide)
    (by norm_num [bWitC7, k]) (by decide)
  exact ⟨h.1, h.2.1, h.2.2.1, h.2.2.2 (fun _ => true)⟩

end breaker
